import Mathlib

/-
Verification development for the drawing-tool repository
(src/components/DrawingTool.tsx and its small helper components).

The component is embedded as a state machine: coordinates are rationals,
the canvas pixel buffer is modelled freely as the list of rasterization
commands issued since the last full clear (white fill), and each React
event handler becomes a pure function on the component state.  React
state updates within one event handler are flushed before the next event
is processed, matching the single-threaded event-at-a-time semantics.
-/

namespace DrawingTool

/-- Constant CANVAS_WIDTH from DrawingTool.tsx line 20. -/
def CANVAS_WIDTH : ℚ := 600

/-- Constant CANVAS_HEIGHT from DrawingTool.tsx line 21. -/
def CANVAS_HEIGHT : ℚ := 600

/-- Constant BORDER_SIZE from DrawingTool.tsx line 22. -/
def BORDER_SIZE : ℚ := 20

/-- A 2D point with rational coordinates. -/
abbrev Point := ℚ × ℚ

/-- One canvas path segment issued between beginPath and stroke:
either moveTo p, lineTo q or moveTo p, quadraticCurveTo c q. -/
inductive PathCmd
  | line (p q : Point)
  | quad (p c q : Point)
  deriving DecidableEq, Repr

/-- One rasterization command applied to the pixel buffer:
a filled dot (arc plus fill from startDrawing) or a stroked path
segment with the line width and stroke colour in force. -/
inductive DrawCmd
  | dot (center : Point) (radius : ℚ) (colour : String)
  | seg (pc : PathCmd) (w : ℚ) (colour : String)
  deriving DecidableEq, Repr

/-- The pixel buffer, modelled freely as the list of rasterization
commands applied since the last white fill.  getImageData copies this
value; putImageData replaces it; equality of these values implies
byte-for-byte equality of the real pixel buffers. -/
abbrev Buffer := List DrawCmd

/-- The drawBounds record (minX, minY, maxX, maxY).  The source keeps
the empty sentinel as positive/negative infinities; here the sentinel
state is Option.none and a concrete rectangle is Option.some. -/
structure Rect where
  minX : ℚ
  minY : ℚ
  maxX : ℚ
  maxY : ℚ
  deriving DecidableEq, Repr

/-- Browser environment parameters read by the component: the viewport
bounding client rect and the device pixel ratio. -/
structure Env where
  rectLeft : ℚ
  rectTop : ℚ
  rectWidth : ℚ
  rectHeight : ℚ
  dpr : ℚ
  deriving DecidableEq, Repr

/-- The component state: every useState field of DrawingTool plus the
lastPointRef ref and the canvas pixel buffer. -/
structure DTState where
  buffer : Buffer
  isDrawing : Bool
  hasDrawn : Bool
  brushSize : ℚ
  brushColour : String
  isPanMode : Bool
  isPanning : Bool
  panOffset : Point
  scale : ℚ
  lastPointerPosition : Point
  drawBounds : Option Rect
  lastPoint : Option Point
  history : List Buffer
  historyIndex : ℤ
  deriving DecidableEq, Repr

/-- getCanvasCoordinates (DrawingTool.tsx lines 110-121): screen/client
point to buffer point, subtracting the viewport rect origin and the pan
offset, then dividing by scale. -/
def getCanvasCoordinates (env : Env) (panOffset : Point) (scale : ℚ)
    (clientX clientY : ℚ) : Point :=
  ((clientX - env.rectLeft - panOffset.1) / scale,
   (clientY - env.rectTop - panOffset.2) / scale)

/-- The CSS render transform applied to the canvas wrapper
(DrawingTool.tsx lines 485-492): translate(panOffset) scale(scale) with
origin top-left, so a buffer point p lands at panOffset + scale * p in
viewport coordinates. -/
def renderTransform (panOffset : Point) (scale : ℚ) (p : Point) : Point :=
  (panOffset.1 + scale * p.1, panOffset.2 + scale * p.2)

/-- updateDrawBounds (lines 123-130): min/max fold of the touched point
into the bounds; from the infinite sentinel the first point gives a
degenerate rectangle at that point. -/
def updateDrawBounds (b : Option Rect) (x y : ℚ) : Option Rect :=
  match b with
  | none => some ⟨x, y, x, y⟩
  | some r => some ⟨min r.minX x, min r.minY y, max r.maxX x, max r.maxY y⟩

/-- Midpoint of two points, as computed in drawSmoothLine. -/
def midpoint2 (p q : Point) : Point := ((p.1 + q.1) / 2, (p.2 + q.2) / 2)

/-- drawSmoothLine (lines 133-165), as the list of path commands it
strokes plus the updated lastPointRef value.  Note that in the non-null
branch the control point is set to lastPoint itself
(const controlPoint = lastPoint, line 143). -/
def drawSmoothLine (lastPoint : Option Point) (start e : Point) :
    List PathCmd × Option Point :=
  match lastPoint with
  | none => ([.line start e], some e)
  | some lp =>
      ([.quad lp lp (midpoint2 lp e), .line (midpoint2 lp e) e], some e)

/-- startDrawing (lines 167-190): in draw mode, convert the event
position, record it as lastPoint, mark drawing, fold it into the
bounds and rasterize a filled dot of radius brushSize / 2 there. -/
def startDrawing (env : Env) (cx cy : ℚ) (s : DTState) : DTState :=
  if s.isPanMode then s
  else
    let coords := getCanvasCoordinates env s.panOffset s.scale cx cy
    { s with
        lastPoint := some coords
        isDrawing := true
        drawBounds := updateDrawBounds s.drawBounds coords.1 coords.2
        buffer := s.buffer ++ [.dot coords (s.brushSize / 2) s.brushColour] }

/-- draw (lines 192-213): while drawing in draw mode, convert the event
position; if lastPointRef is non-null, stroke the smooth segment and set
hasDrawn; the bounds fold over the new point happens in either case. -/
def draw (env : Env) (cx cy : ℚ) (s : DTState) : DTState :=
  if s.isDrawing ∧ ¬s.isPanMode then
    let nc := getCanvasCoordinates env s.panOffset s.scale cx cy
    match s.lastPoint with
    | some lp =>
        let res := drawSmoothLine (some lp) lp nc
        { s with
            buffer := s.buffer ++
              res.1.map (fun pc => .seg pc s.brushSize s.brushColour)
            hasDrawn := true
            lastPoint := res.2
            drawBounds := updateDrawBounds s.drawBounds nc.1 nc.2 }
    | none => { s with drawBounds := updateDrawBounds s.drawBounds nc.1 nc.2 }
  else s

/-- JavaScript Array.prototype.slice(0, e) for a possibly negative
integer end index (a negative end counts from the end of the array). -/
def jsSliceTo {α : Type} (l : List α) (e : ℤ) : List α :=
  if 0 ≤ e then l.take e.toNat else l.take (l.length - (-e).toNat)

/-- stopDrawing (lines 215-233): end the stroke; if hasDrawn, snapshot
the buffer, truncate the history after historyIndex, append the
snapshot and advance the index. -/
def stopDrawing (s : DTState) : DTState :=
  if s.isDrawing then
    if s.hasDrawn then
      { s with
          isDrawing := false
          lastPoint := none
          history := jsSliceTo s.history (s.historyIndex + 1) ++ [s.buffer]
          historyIndex := s.historyIndex + 1
          hasDrawn := false }
    else { s with isDrawing := false, lastPoint := none }
  else s

/-- startPanning (lines 236-244). -/
def startPanning (cx cy : ℚ) (s : DTState) : DTState :=
  if s.isPanMode then
    { s with isPanning := true, lastPointerPosition := (cx, cy) }
  else s

/-- pan (lines 246-256). -/
def pan (cx cy : ℚ) (s : DTState) : DTState :=
  if s.isPanning then
    { s with
        panOffset := (s.panOffset.1 + (cx - s.lastPointerPosition.1),
                      s.panOffset.2 + (cy - s.lastPointerPosition.2))
        lastPointerPosition := (cx, cy) }
  else s

/-- stopPanning (lines 258-260). -/
def stopPanning (s : DTState) : DTState := { s with isPanning := false }

/-- handleZoom (lines 263-279): recover the buffer point under the
viewport visual center, clamp the new scale to the range 1/10 to 3 and
recompute the pan offset so that the same buffer point stays under the
center. -/
def handleZoom (env : Env) (delta : ℚ) (s : DTState) : DTState :=
  let viewportCenterX := env.rectWidth / 2
  let viewportCenterY := env.rectHeight / 2
  let canvasCenterX := (viewportCenterX - s.panOffset.1) / s.scale
  let canvasCenterY := (viewportCenterY - s.panOffset.2) / s.scale
  let newScale := min (max (s.scale + delta * (1 / 10)) (1 / 10)) 3
  { s with
      scale := newScale
      panOffset := (viewportCenterX - canvasCenterX * newScale,
                    viewportCenterY - canvasCenterY * newScale) }

/-- history[i] for an integer index, with the empty buffer as default.
The source only reads in-range indices (guarded by the undo/redo
conditions together with the history index invariant). -/
def getAtD (l : List Buffer) (i : ℤ) : Buffer :=
  if 0 ≤ i then l.getD i.toNat [] else []

/-- undo (lines 282-288): when historyIndex is greater than 0, step the
index back one and restore that snapshot into the buffer. -/
def undoFun (s : DTState) : DTState :=
  if 0 < s.historyIndex then
    { s with
        historyIndex := s.historyIndex - 1
        buffer := getAtD s.history (s.historyIndex - 1) }
  else s

/-- redo (lines 290-296): when historyIndex is below the last index,
step the index forward one and restore that snapshot into the buffer. -/
def redoFun (s : DTState) : DTState :=
  if s.historyIndex < (s.history.length : ℤ) - 1 then
    { s with
        historyIndex := s.historyIndex + 1
        buffer := getAtD s.history (s.historyIndex + 1) }
  else s

/-- resetCanvas (lines 355-387): white-fill the buffer, re-center the
pan offset, reset scale, clear the bounds sentinel and lastPointRef,
clear hasDrawn and reset the history to one blank snapshot at index 0.
canvas.width / devicePixelRatio equals the 600 logical width. -/
def resetCanvas (env : Env) (s : DTState) : DTState :=
  { s with
      buffer := []
      panOffset := ((env.rectWidth - CANVAS_WIDTH) / 2,
                    (env.rectHeight - CANVAS_HEIGHT) / 2)
      scale := 1
      drawBounds := none
      lastPoint := none
      hasDrawn := false
      history := [[]]
      historyIndex := 0 }

/-- The crop rectangle produced by getCanvasData: origin and size of the
region copied into the save canvas, in the units of the source
computation. -/
structure CropRect where
  x : ℚ
  y : ℚ
  w : ℚ
  h : ℚ
  deriving DecidableEq, Repr

/-- getCanvasData (lines 299-341): expand the bounds by BORDER_SIZE,
clamp below at 0 and above at canvas.width = 600 * dpr (device pixels),
and alert (returning nothing) when the resulting width or height is
non-positive or the bounds are still the infinite sentinel.  With the
Option model of the bounds, the sentinel branch is the none case (in
the source the sentinel infinities also force width = -infinity, so the
two disjunct orders agree). -/
def getCanvasData (dpr : ℚ) (b : Option Rect) : Option CropRect :=
  match b with
  | none => none
  | some r =>
      let minX := max 0 (r.minX - BORDER_SIZE)
      let minY := max 0 (r.minY - BORDER_SIZE)
      let maxX := min (CANVAS_WIDTH * dpr) (r.maxX + BORDER_SIZE)
      let maxY := min (CANVAS_HEIGHT * dpr) (r.maxY + BORDER_SIZE)
      let width := maxX - minX
      let height := maxY - minY
      if width ≤ 0 ∨ height ≤ 0 then none
      else some ⟨minX, minY, width, height⟩

/-- getCanvasImageData (lines 404-407): encode the crop produced by
getCanvasData, or null when getCanvasData aborted.  The PNG encoding is
modelled as the identity on the crop. -/
def getCanvasImageData (dpr : ℚ) (b : Option Rect) : Option CropRect :=
  getCanvasData dpr b

/-- Math.sign for rationals, as used by the wheel handler. -/
def jsSign (x : ℚ) : ℚ := if 0 < x then 1 else if x < 0 then -1 else 0

/-- The user-visible events the component reacts to, as wired in the
JSX (lines 413-495) and the wheel effect (lines 390-402). -/
inductive Event
  | pointerDown (cx cy : ℚ)
  | pointerMove (cx cy : ℚ)
  | pointerUp
  | pointerLeave
  | togglePanMode
  | zoomInClick
  | zoomOutClick
  | wheel (deltaY : ℚ)
  | undoClick
  | redoClick
  | resetClick
  | chooseBrushSize (n : ℚ)
  | chooseColour (c : String)
  deriving DecidableEq, Repr

/-- One event dispatch: the JSX routes pointer events by isPanMode
(lines 477-480), the buttons call handleZoom with plus/minus 1
(lines 426, 432), the wheel handler calls handleZoom with
-sign(deltaY) * 0.5 (line 395), and the pickers set the brush fields. -/
def step (env : Env) (s : DTState) (e : Event) : DTState :=
  match e with
  | .pointerDown cx cy =>
      if s.isPanMode then startPanning cx cy s else startDrawing env cx cy s
  | .pointerMove cx cy => if s.isPanMode then pan cx cy s else draw env cx cy s
  | .pointerUp => if s.isPanMode then stopPanning s else stopDrawing s
  | .pointerLeave => if s.isPanMode then stopPanning s else stopDrawing s
  | .togglePanMode => { s with isPanMode := !s.isPanMode }
  | .zoomInClick => handleZoom env 1 s
  | .zoomOutClick => handleZoom env (-1) s
  | .wheel dy => handleZoom env (-(jsSign dy) * (5 / 10)) s
  | .undoClick => undoFun s
  | .redoClick => redoFun s
  | .resetClick => resetCanvas env s
  | .chooseBrushSize n => { s with brushSize := n }
  | .chooseColour c => { s with brushColour := c }

/-- The state right after mount: the initialization effects (lines
52-99) white-fill the buffer, save the blank snapshot as history [blank]
at index 0, and center the pan offset; the useState initial values give
the remaining fields. -/
def initState (env : Env) : DTState :=
  { buffer := []
    isDrawing := false
    hasDrawn := false
    brushSize := 5
    brushColour := "#000000"
    isPanMode := false
    isPanning := false
    panOffset := ((env.rectWidth - CANVAS_WIDTH) / 2,
                  (env.rectHeight - CANVAS_HEIGHT) / 2)
    scale := 1
    lastPointerPosition := (0, 0)
    drawBounds := none
    lastPoint := none
    history := [[]]
    historyIndex := 0 }

/-- Run a sequence of events from the initial state. -/
def run (env : Env) (evs : List Event) : DTState :=
  evs.foldl (step env) (initState env)

/-- The combined reachability invariant: the history index stays inside
the history, and the scale stays in the range 1/10 to 3. -/
def Inv (s : DTState) : Prop :=
  0 ≤ s.historyIndex ∧ s.historyIndex < (s.history.length : ℤ) ∧
  1 / 10 ≤ s.scale ∧ s.scale ≤ 3

/-- A fixed environment: viewport rect at the origin, 600 by 600,
device pixel ratio 1.  The initial pan offset is then (0, 0). -/
def env0 : Env := ⟨0, 0, 600, 600, 1⟩

/-- The same viewport with device pixel ratio 2. -/
def env2 : Env := ⟨0, 0, 600, 600, 2⟩

/-- A one-dot buffer used by the concrete witnesses. -/
def sampleStroke : Buffer := [.dot (100, 100) (5 / 2) "#000000"]

/-- A mid-stroke state: drawing, with at least one move event already
processed (hasDrawn), one dot in the buffer, blank history at index 0. -/
def sDrawing : DTState :=
  { initState env0 with
      isDrawing := true
      hasDrawn := true
      buffer := sampleStroke
      lastPoint := some (100, 100)
      drawBounds := some ⟨100, 100, 100, 100⟩ }

/-- The state after one completed stroke: the dot snapshot appended,
index 1, buffer equal to that snapshot. -/
def sAfterOneStroke : DTState :=
  { initState env0 with
      buffer := sampleStroke
      history := [[], sampleStroke]
      historyIndex := 1
      drawBounds := some ⟨100, 100, 100, 100⟩ }

/-- Modelled from the spec: pixel coverage of the rasterized dot.  The
rasterizer itself is a browser builtin, not repository code; per the
spec a filled circle of positive radius centered inside the 600 by 600
raster produces a visible dot, that is, touches at least one pixel. -/
def dotTouchesCanvas (c : Point) (r : ℚ) : Prop :=
  0 < r ∧ 0 ≤ c.1 ∧ c.1 ≤ CANVAS_WIDTH ∧ 0 ≤ c.2 ∧ c.2 ≤ CANVAS_HEIGHT

/-- An event sequence that pans the canvas 200 units right and then
taps in draw mode near the left viewport edge, producing buffer
coordinates left of the canvas. -/
def panTapEvs : List Event :=
  [.togglePanMode, .pointerDown 0 0, .pointerMove 200 0, .pointerUp,
   .togglePanMode, .pointerDown 100 300, .pointerUp]

/-- An event sequence drawing one stroke from (0, 0) to (595, 595). -/
def edgeEvs : List Event :=
  [.pointerDown 0 0, .pointerMove 595 595, .pointerUp]

/-- Modelled from the spec: the crop dimensions claim C6 asserts — the
stroke bounds expanded by the fixed margin on each side and clamped to
the 600 by 600 logical raster. -/
def specCropDims (r : Rect) : ℚ × ℚ :=
  (min CANVAS_WIDTH (r.maxX + BORDER_SIZE) - max 0 (r.minX - BORDER_SIZE),
   min CANVAS_HEIGHT (r.maxY + BORDER_SIZE) - max 0 (r.minY - BORDER_SIZE))

/-- A state whose scale sits at the upper clamp bound 3. -/
def s3 : DTState := { initState env0 with scale := 3 }

/-- Modelled from the spec: the smoothed segment claim C9 describes,
with the current (new) point as the control point and the segment split
at the midpoint. -/
def specSmoothCmds (lp e : Point) : List PathCmd :=
  [.quad lp e (midpoint2 lp e), .line (midpoint2 lp e) e]

/-- Linear interpolation from p to q at parameter t: the points of the
straight segment for t between 0 and 1. -/
def lerp (p q : Point) (t : ℚ) : Point :=
  ((1 - t) * p.1 + t * q.1, (1 - t) * p.2 + t * q.2)

/-- The point at parameter t of the quadratic Bezier curve drawn by
quadraticCurveTo with start p, control c and end q. -/
def qbezier (p c q : Point) (t : ℚ) : Point :=
  ((1 - t) ^ 2 * p.1 + 2 * t * (1 - t) * c.1 + t ^ 2 * q.1,
   (1 - t) ^ 2 * p.2 + 2 * t * (1 - t) * c.2 + t ^ 2 * q.2)

end DrawingTool

namespace DrawingTool

/-- Claim C1: for every pan offset and every scale in the range 1/10 to 3,
converting a screen point to buffer space with getCanvasCoordinates and
mapping the result back through the render transform (and the viewport
rect origin) yields the original screen point. -/
theorem screen_buffer_roundtrip (env : Env) (pan : Point) (scale cx cy : ℚ)
    (h1 : 1 / 10 ≤ scale) (h2 : scale ≤ 3) :
    (env.rectLeft + (renderTransform pan scale
        (getCanvasCoordinates env pan scale cx cy)).1,
     env.rectTop + (renderTransform pan scale
        (getCanvasCoordinates env pan scale cx cy)).2) = (cx, cy) := by
  have hs : scale ≠ 0 := by
    intro h
    rw [h] at h1
    norm_num at h1
  simp only [renderTransform, getCanvasCoordinates, Prod.mk.injEq]
  constructor <;> field_simp

/-- Witness for screen_buffer_roundtrip at env = ⟨0,0,600,600,1⟩,
pan = (7,11), scale = 1/2, screen point (10, 20). -/
theorem screen_buffer_roundtrip_witness :
    ((⟨0, 0, 600, 600, 1⟩ : Env).rectLeft + (renderTransform (7, 11) (1/2)
        (getCanvasCoordinates ⟨0, 0, 600, 600, 1⟩ (7, 11) (1/2) 10 20)).1,
     (⟨0, 0, 600, 600, 1⟩ : Env).rectTop + (renderTransform (7, 11) (1/2)
        (getCanvasCoordinates ⟨0, 0, 600, 600, 1⟩ (7, 11) (1/2) 10 20)).2)
      = ((10 : ℚ), (20 : ℚ)) :=
  screen_buffer_roundtrip ⟨0, 0, 600, 600, 1⟩ (7, 11) (1/2) 10 20
    (by norm_num) (by norm_num)

lemma jsSliceTo_nonneg {α : Type} (l : List α) (e : ℤ) (he : 0 ≤ e) :
    jsSliceTo l e = l.take e.toNat := by
  simp [jsSliceTo, he]

lemma inv_step (env : Env) (e : Event) (s : DTState) (h : Inv s) :
    Inv (step env s e) := by
  obtain ⟨h1, h2, h3, h4⟩ := h
  have hzoom : ∀ d : ℚ, Inv (handleZoom env d s) := by
    intro d
    exact ⟨h1, h2, le_min (le_max_right _ _) (by norm_num), min_le_right _ _⟩
  cases e with
  | pointerDown cx cy =>
      simp only [step, startPanning, startDrawing]
      split_ifs <;> exact ⟨h1, h2, h3, h4⟩
  | pointerMove cx cy =>
      simp only [step, pan, draw]
      split_ifs <;> try exact ⟨h1, h2, h3, h4⟩
      cases s.lastPoint <;> exact ⟨h1, h2, h3, h4⟩
  | pointerUp =>
      simp only [step, stopPanning, stopDrawing]
      split_ifs <;> try exact ⟨h1, h2, h3, h4⟩
      refine ⟨?_, ?_, h3, h4⟩
      · dsimp only
        omega
      · dsimp only
        rw [jsSliceTo_nonneg _ _ (by omega)]
        simp only [List.length_append, List.length_take, List.length_cons,
          List.length_nil]
        push_cast
        omega
  | pointerLeave =>
      simp only [step, stopPanning, stopDrawing]
      split_ifs <;> try exact ⟨h1, h2, h3, h4⟩
      refine ⟨?_, ?_, h3, h4⟩
      · dsimp only
        omega
      · dsimp only
        rw [jsSliceTo_nonneg _ _ (by omega)]
        simp only [List.length_append, List.length_take, List.length_cons,
          List.length_nil]
        push_cast
        omega
  | togglePanMode => exact ⟨h1, h2, h3, h4⟩
  | zoomInClick => exact hzoom 1
  | zoomOutClick => exact hzoom (-1)
  | wheel dy => exact hzoom _
  | undoClick =>
      simp only [step, undoFun]
      split_ifs with hpos
      · refine ⟨?_, ?_, h3, h4⟩ <;> dsimp only <;> omega
      · exact ⟨h1, h2, h3, h4⟩
  | redoClick =>
      simp only [step, redoFun]
      split_ifs with hlt
      · refine ⟨?_, ?_, h3, h4⟩ <;> dsimp only <;> omega
      · exact ⟨h1, h2, h3, h4⟩
  | resetClick =>
      simp only [step, resetCanvas]
      refine ⟨?_, ?_, ?_, ?_⟩ <;> dsimp only <;> norm_num
  | chooseBrushSize n => exact ⟨h1, h2, h3, h4⟩
  | chooseColour c => exact ⟨h1, h2, h3, h4⟩

lemma inv_foldl (env : Env) (evs : List Event) :
    ∀ s : DTState, Inv s → Inv (evs.foldl (step env) s) := by
  induction evs with
  | nil => intro s h; exact h
  | cons e t ih => intro s h; exact ih _ (inv_step env e s h)

lemma inv_init (env : Env) : Inv (initState env) := by
  refine ⟨?_, ?_, ?_, ?_⟩ <;> norm_num [initState]

lemma inv_run (env : Env) (evs : List Event) : Inv (run env evs) :=
  inv_foldl env evs _ (inv_init env)

/-- Claim C2: after initialization, every operation keeps the history
index within 0 and history.length - 1 (stated over all reachable
states), and ending a stroke that drew appends the snapshot after first
discarding every snapshot past the current index. -/
theorem history_index_invariant (env : Env) (evs : List Event) :
    (0 ≤ (run env evs).historyIndex ∧
      (run env evs).historyIndex < ((run env evs).history.length : ℤ)) ∧
    ∀ s : DTState, s.isDrawing = true → s.hasDrawn = true →
      0 ≤ s.historyIndex →
      (stopDrawing s).history
          = s.history.take (s.historyIndex + 1).toNat ++ [s.buffer] ∧
      (stopDrawing s).historyIndex = s.historyIndex + 1 := by
  constructor
  · have h := inv_run env evs
    exact ⟨h.1, h.2.1⟩
  · intro s hD hH hIdx
    simp only [stopDrawing, hD, hH, if_true]
    rw [jsSliceTo_nonneg _ _ (by omega)]
    exact ⟨rfl, trivial⟩

/-- Witness for history_index_invariant: from the blank history at
index 0, stopping the drawn stroke of sDrawing appends the snapshot and
moves the index to 1. -/
theorem history_index_invariant_witness :
    (stopDrawing sDrawing).history = [[], sampleStroke] ∧
    (stopDrawing sDrawing).historyIndex = 1 := by
  have h := (history_index_invariant env0 []).2 sDrawing rfl rfl (by decide)
  refine ⟨?_, ?_⟩
  · rw [h.1]
    rfl
  · rw [h.2]
    decide

/-- Claim C8: over every event sequence from the initial state the
scale stays within 1/10 and 3, and each zoom sets the new scale to
clamp(current scale + delta * 0.1, 0.1, 3). -/
theorem scale_invariant (env : Env) :
    (∀ evs : List Event,
      1 / 10 ≤ (run env evs).scale ∧ (run env evs).scale ≤ 3) ∧
    ∀ (s : DTState) (delta : ℚ),
      (handleZoom env delta s).scale
        = min (max (s.scale + delta * (1 / 10)) (1 / 10)) 3 := by
  constructor
  · intro evs
    have h := inv_run env evs
    exact ⟨h.2.2.1, h.2.2.2⟩
  · intro s delta
    rfl

/-- Counterexample to claim C3: a tap without movement in draw mode
(pointer down at (100, 100), then pointer up) rasterizes the dot into
the buffer — touching pixels — yet ends the stroke without appending
any snapshot: the history stays the single blank entry at index 0. -/
theorem tap_without_movement_no_snapshot :
    (run env0 [.pointerDown 100 100, .pointerUp]).buffer = sampleStroke ∧
    dotTouchesCanvas (100, 100) (5 / 2) ∧
    (run env0 [.pointerDown 100 100, .pointerUp]).history = [[]] ∧
    (run env0 [.pointerDown 100 100, .pointerUp]).historyIndex = 0 := by
  refine ⟨?_, ?_, ?_, ?_⟩ <;>
    norm_num [run, step, startDrawing, stopDrawing, startPanning, pan, draw,
      getCanvasCoordinates, updateDrawBounds, initState, env0, sampleStroke,
      jsSliceTo, List.foldl, dotTouchesCanvas, CANVAS_WIDTH, CANVAS_HEIGHT]

/-- Claim C3 (amended): ending a stroke appends the full-buffer
snapshot (truncating the redo tail first) exactly when at least one
pointer-move drawing event occurred during the stroke, that is, when
the hasDrawn flag is set; a tap without movement rasterizes the dot
into the buffer but ends the stroke without appending a snapshot. -/
theorem stroke_snapshot_iff_hasDrawn (s : DTState) (hD : s.isDrawing = true) :
    (s.hasDrawn = true →
      (stopDrawing s).history
          = jsSliceTo s.history (s.historyIndex + 1) ++ [s.buffer] ∧
      (stopDrawing s).historyIndex = s.historyIndex + 1) ∧
    (s.hasDrawn = false →
      (stopDrawing s).history = s.history ∧
      (stopDrawing s).historyIndex = s.historyIndex ∧
      (stopDrawing s).buffer = s.buffer) := by
  constructor
  · intro hH
    simp [stopDrawing, hD, hH]
  · intro hH
    simp [stopDrawing, hD, hH]

/-- Witness for stroke_snapshot_iff_hasDrawn at the concrete tap state
reached by pointer down at (100, 100): stopping that stroke leaves
history, index and buffer unchanged. -/
theorem stroke_snapshot_iff_hasDrawn_witness :
    (stopDrawing (run env0 [.pointerDown 100 100])).history = [[]] ∧
    (stopDrawing (run env0 [.pointerDown 100 100])).historyIndex = 0 ∧
    (stopDrawing (run env0 [.pointerDown 100 100])).buffer = sampleStroke := by
  have hD : (run env0 [.pointerDown 100 100]).isDrawing = true := by
    norm_num [run, step, startDrawing, getCanvasCoordinates, updateDrawBounds,
      initState, env0, List.foldl]
  have hH : (run env0 [.pointerDown 100 100]).hasDrawn = false := by
    norm_num [run, step, startDrawing, getCanvasCoordinates, updateDrawBounds,
      initState, env0, List.foldl]
  have h := (stroke_snapshot_iff_hasDrawn (run env0 [.pointerDown 100 100]) hD).2 hH
  refine ⟨h.1.trans ?_, h.2.1.trans ?_, h.2.2.trans ?_⟩ <;>
    norm_num [run, step, startDrawing, getCanvasCoordinates, updateDrawBounds,
      initState, env0, sampleStroke, List.foldl, CANVAS_WIDTH, CANVAS_HEIGHT]

lemma undoFun_pos (s : DTState) (h : 0 < s.historyIndex) :
    undoFun s = { s with
        historyIndex := s.historyIndex - 1
        buffer := getAtD s.history (s.historyIndex - 1) } := by
  unfold undoFun
  rw [if_pos h]

lemma redoFun_lt (s : DTState)
    (h : s.historyIndex < (s.history.length : ℤ) - 1) :
    redoFun s = { s with
        historyIndex := s.historyIndex + 1
        buffer := getAtD s.history (s.historyIndex + 1) } := by
  unfold redoFun
  rw [if_pos h]

lemma undo_iter (j : ℕ) : ∀ s : DTState, (j : ℤ) ≤ s.historyIndex →
    ((undoFun^[j]) s).history = s.history ∧
    ((undoFun^[j]) s).historyIndex = s.historyIndex - j ∧
    (1 ≤ j →
      ((undoFun^[j]) s).buffer = getAtD s.history (s.historyIndex - j)) := by
  induction j with
  | zero =>
      intro s h
      exact ⟨rfl, by simp, fun hc => absurd hc (by norm_num)⟩
  | succ n ih =>
      intro s h
      obtain ⟨ih1, ih2, ih3⟩ := ih s (by push_cast at h ⊢; omega)
      rw [Function.iterate_succ_apply']
      have hpos : 0 < ((undoFun^[n]) s).historyIndex := by
        rw [ih2]
        push_cast at h ⊢
        omega
      rw [undoFun_pos _ hpos]
      refine ⟨ih1, ?_, ?_⟩
      · dsimp only
        rw [ih2]
        push_cast
        ring
      · intro _
        dsimp only
        rw [ih1, ih2]
        congr 1
        push_cast
        ring

lemma redo_iter (i : ℕ) : ∀ s : DTState,
    s.historyIndex + i ≤ (s.history.length : ℤ) - 1 →
    ((redoFun^[i]) s).history = s.history ∧
    ((redoFun^[i]) s).historyIndex = s.historyIndex + i ∧
    (1 ≤ i →
      ((redoFun^[i]) s).buffer = getAtD s.history (s.historyIndex + i)) := by
  induction i with
  | zero =>
      intro s h
      exact ⟨rfl, by simp, fun hc => absurd hc (by norm_num)⟩
  | succ n ih =>
      intro s h
      obtain ⟨ih1, ih2, ih3⟩ := ih s (by push_cast at h ⊢; omega)
      rw [Function.iterate_succ_apply']
      have hlt : ((redoFun^[n]) s).historyIndex
          < (((redoFun^[n]) s).history.length : ℤ) - 1 := by
        rw [ih2, ih1]
        push_cast at h ⊢
        omega
      rw [redoFun_lt _ hlt]
      refine ⟨ih1, ?_, ?_⟩
      · dsimp only
        rw [ih2]
        push_cast
        ring
      · intro _
        dsimp only
        rw [ih1, ih2]
        congr 1
        push_cast
        ring

/-- Claim C4: from the state reached after the K-th completed stroke
(history holds the blank snapshot plus K stroke snapshots, the index
sits at K, and the buffer equals the K-th snapshot), undoing K times
and then redoing K times restores the buffer byte-for-byte. -/
theorem undo_redo_roundtrip (s : DTState) (K : ℕ) (hK : 1 ≤ K)
    (hlen : s.history.length = K + 1) (hidx : s.historyIndex = (K : ℤ))
    (hbuf : s.buffer = getAtD s.history (K : ℤ)) :
    ((redoFun^[K]) ((undoFun^[K]) s)).buffer = s.buffer := by
  obtain ⟨u1, u2, u3⟩ := undo_iter K s (by rw [hidx])
  obtain ⟨r1, r2, r3⟩ := redo_iter K ((undoFun^[K]) s)
    (by rw [u2, u1, hidx, hlen]; push_cast; omega)
  rw [r3 hK, u1, u2, hidx, hbuf]
  congr 1
  ring

/-- Witness for undo_redo_roundtrip with K = 1 at sAfterOneStroke. -/
theorem undo_redo_roundtrip_witness :
    ((redoFun^[1]) ((undoFun^[1]) sAfterOneStroke)).buffer
      = sAfterOneStroke.buffer :=
  undo_redo_roundtrip sAfterOneStroke 1 (by norm_num) rfl rfl rfl

/-- Claim C10: undo and redo leave the pan offset, the scale, the
stroke bounds, the brush colour, the brush size, the draw/pan mode and
the history sequence unchanged; they touch only the buffer and the
history index. -/
theorem undo_redo_frame (s : DTState) :
    ((undoFun s).panOffset = s.panOffset ∧ (undoFun s).scale = s.scale ∧
     (undoFun s).drawBounds = s.drawBounds ∧
     (undoFun s).brushColour = s.brushColour ∧
     (undoFun s).brushSize = s.brushSize ∧
     (undoFun s).isPanMode = s.isPanMode ∧
     (undoFun s).history = s.history) ∧
    ((redoFun s).panOffset = s.panOffset ∧ (redoFun s).scale = s.scale ∧
     (redoFun s).drawBounds = s.drawBounds ∧
     (redoFun s).brushColour = s.brushColour ∧
     (redoFun s).brushSize = s.brushSize ∧
     (redoFun s).isPanMode = s.isPanMode ∧
     (redoFun s).history = s.history) := by
  unfold undoFun redoFun
  constructor <;> split_ifs <;> exact ⟨rfl, rfl, rfl, rfl, rfl, rfl, rfl⟩

/-- Counterexample to claim C5: panning the canvas 200 units right and
then tapping near the left viewport edge leaves the stroke bounds at
the non-sentinel rectangle (-100, 300, -100, 300), entirely left of the
canvas; export still reports the nothing-to-export condition even
though the bounds are not in the empty sentinel state, refuting the
only-if direction of the claimed equivalence. -/
theorem export_empty_cex :
    (run env0 panTapEvs).drawBounds = some ⟨-100, 300, -100, 300⟩ ∧
    (run env0 panTapEvs).drawBounds ≠ none ∧
    getCanvasData 1 ((run env0 panTapEvs).drawBounds) = none := by
  have hb : (run env0 panTapEvs).drawBounds = some ⟨-100, 300, -100, 300⟩ := by
    norm_num [run, step, startDrawing, stopDrawing, startPanning, pan, draw,
      stopPanning, getCanvasCoordinates, updateDrawBounds, initState, env0,
      panTapEvs, jsSliceTo, List.foldl, CANVAS_WIDTH, CANVAS_HEIGHT]
  refine ⟨hb, ?_, ?_⟩
  · rw [hb]
    simp
  · rw [hb]
    norm_num [getCanvasData, CANVAS_WIDTH, CANVAS_HEIGHT, BORDER_SIZE]

/-- Claim C5 (amended): getCanvasData reports the nothing-to-export
condition (no image, no exception) if and only if the stroke bounds are
still the empty sentinel, or the margin-expanded bounds clamped to the
backing canvas are degenerate (non-positive width or height, possible
only when every recorded stroke coordinate lies outside the canvas by
more than the margin); getImageData returns the empty result in exactly
the same cases. -/
theorem export_none_iff (dpr : ℚ) (b : Option Rect) :
    (getCanvasData dpr b = none ↔
      b = none ∨ ∃ r, b = some r ∧
        (min (CANVAS_WIDTH * dpr) (r.maxX + BORDER_SIZE)
            - max 0 (r.minX - BORDER_SIZE) ≤ 0 ∨
         min (CANVAS_HEIGHT * dpr) (r.maxY + BORDER_SIZE)
            - max 0 (r.minY - BORDER_SIZE) ≤ 0)) ∧
    (getCanvasImageData dpr b = none ↔ getCanvasData dpr b = none) := by
  refine ⟨?_, Iff.rfl⟩
  cases b with
  | none => simp [getCanvasData]
  | some r =>
      simp only [getCanvasData]
      split_ifs with h
      · constructor
        · intro _
          exact Or.inr ⟨r, rfl, h⟩
        · intro _
          rfl
      · constructor
        · intro hc
          exact absurd hc (by simp)
        · intro hc
          rcases hc with hno | ⟨r2, hr2, hle⟩
          · exact absurd hno (by simp)
          · injection hr2 with hr2e
            subst hr2e
            exact absurd hle h

/-- Counterexample to claim C6: at device pixel ratio 2, one stroke
from (0, 0) to (595, 595) touches pixels and leaves bounds
(0, 0, 595, 595); getCanvasData clamps to canvas.width = 600 * dpr
= 1200 device pixels and produces a 615 by 615 crop, while the claim
(clamping to the 600 by 600 logical raster) demands 600 by 600. -/
theorem export_dims_cex :
    (run env2 edgeEvs).drawBounds = some ⟨0, 0, 595, 595⟩ ∧
    getCanvasData 2 ((run env2 edgeEvs).drawBounds)
      = some ⟨0, 0, 615, 615⟩ ∧
    specCropDims ⟨0, 0, 595, 595⟩ = (600, 600) ∧
    ((615 : ℚ), (615 : ℚ)) ≠ ((600 : ℚ), (600 : ℚ)) := by
  have hb : (run env2 edgeEvs).drawBounds = some ⟨0, 0, 595, 595⟩ := by
    norm_num [run, step, startDrawing, stopDrawing, startPanning, pan, draw,
      stopPanning, drawSmoothLine, midpoint2, getCanvasCoordinates,
      updateDrawBounds, initState, env2, edgeEvs, jsSliceTo, List.foldl,
      CANVAS_WIDTH, CANVAS_HEIGHT]
  refine ⟨hb, ?_, ?_, ?_⟩
  · rw [hb]
    norm_num [getCanvasData, CANVAS_WIDTH, CANVAS_HEIGHT, BORDER_SIZE]
  · norm_num [specCropDims, CANVAS_WIDTH, CANVAS_HEIGHT, BORDER_SIZE]
  · norm_num

/-- Claim C6 (amended): whenever some point recorded in the stroke
bounds lies inside the 600 by 600 canvas (at least one touched pixel)
AND the device pixel ratio is at least 1, export succeeds and the
produced crop dimensions equal the bounds expanded by the 20-unit
margin, clamped below at 0 and above at the backing-store extents
600 * dpr (device pixels, not the logical raster); for dpr = 1 these
coincide with the logical clamp the claim states.  For dpr below 1 the
original claim fails a second way: even a stroke entirely inside the
canvas (bounds 320 to 500 at dpr = 1/2) is clamped to a degenerate
rectangle and no image is produced at all, which is why the dpr bound
is part of the amendment. -/
theorem export_dims_amended (dpr : ℚ) (r : Rect) (x y : ℚ)
    (hdpr : 1 ≤ dpr)
    (hx1 : r.minX ≤ x) (hx2 : x ≤ r.maxX) (hx3 : 0 ≤ x)
    (hx4 : x ≤ CANVAS_WIDTH)
    (hy1 : r.minY ≤ y) (hy2 : y ≤ r.maxY) (hy3 : 0 ≤ y)
    (hy4 : y ≤ CANVAS_HEIGHT) :
    getCanvasData dpr (some r)
      = some ⟨max 0 (r.minX - BORDER_SIZE), max 0 (r.minY - BORDER_SIZE),
          min (CANVAS_WIDTH * dpr) (r.maxX + BORDER_SIZE)
            - max 0 (r.minX - BORDER_SIZE),
          min (CANVAS_HEIGHT * dpr) (r.maxY + BORDER_SIZE)
            - max 0 (r.minY - BORDER_SIZE)⟩ ∧
    (dpr = 1 →
      (min (CANVAS_WIDTH * dpr) (r.maxX + BORDER_SIZE)
          - max 0 (r.minX - BORDER_SIZE),
       min (CANVAS_HEIGHT * dpr) (r.maxY + BORDER_SIZE)
          - max 0 (r.minY - BORDER_SIZE)) = specCropDims r) ∧
    getCanvasData (1 / 2) (some ⟨320, 320, 500, 500⟩) = none := by
  have h600 : (600 : ℚ) ≤ 600 * dpr := by nlinarith
  have hwx : max 0 (r.minX - BORDER_SIZE)
      < min (CANVAS_WIDTH * dpr) (r.maxX + BORDER_SIZE) := by
    rw [lt_min_iff]
    constructor <;> rw [max_lt_iff] <;> constructor <;>
      simp only [CANVAS_WIDTH, BORDER_SIZE] at * <;> linarith
  have hwy : max 0 (r.minY - BORDER_SIZE)
      < min (CANVAS_HEIGHT * dpr) (r.maxY + BORDER_SIZE) := by
    rw [lt_min_iff]
    constructor <;> rw [max_lt_iff] <;> constructor <;>
      simp only [CANVAS_WIDTH, CANVAS_HEIGHT, BORDER_SIZE] at * <;> linarith
  refine ⟨?_, ?_, ?_⟩
  · simp only [getCanvasData]
    rw [if_neg]
    push_neg
    exact ⟨sub_pos.mpr hwx, sub_pos.mpr hwy⟩
  · intro h1
    subst h1
    simp [specCropDims]
  · norm_num [getCanvasData, CANVAS_WIDTH, CANVAS_HEIGHT, BORDER_SIZE]

/-- Witness for export_dims_amended at dpr = 1 with bounds
(0, 0, 10, 10) and the touched point (5, 5). -/
theorem export_dims_amended_witness :
    getCanvasData 1 (some ⟨0, 0, 10, 10⟩) = some ⟨0, 0, 30, 30⟩ := by
  have h := (export_dims_amended 1 ⟨0, 0, 10, 10⟩ 5 5 (by norm_num)
    (by norm_num) (by norm_num) (by norm_num)
    (by norm_num [CANVAS_WIDTH]) (by norm_num) (by norm_num) (by norm_num)
    (by norm_num [CANVAS_HEIGHT])).1
  rw [h]
  norm_num [CANVAS_WIDTH, CANVAS_HEIGHT, BORDER_SIZE]

/-- Counterexample to claim C7: at the reachable scale 3 (top of the
claimed range) zooming in by one button step and back out does not
restore the scale: the zoom in clamps at 3 and the zoom out lands at
29/10, an error of 1/10 that no floating-point tolerance covers. -/
theorem zoom_roundtrip_cex :
    (handleZoom env0 (-1) (handleZoom env0 1 s3)).scale ≠ s3.scale := by
  norm_num [handleZoom, s3, initState, env0, CANVAS_WIDTH, CANVAS_HEIGHT,
    min_def, max_def]

lemma handleZoom_eq (env : Env) (d : ℚ) (s : DTState)
    (hlo : 1 / 10 ≤ s.scale + d * (1 / 10))
    (hhi : s.scale + d * (1 / 10) ≤ 3) :
    handleZoom env d s = { s with
        scale := s.scale + d * (1 / 10)
        panOffset := (env.rectWidth / 2
            - (env.rectWidth / 2 - s.panOffset.1) / s.scale
              * (s.scale + d * (1 / 10)),
          env.rectHeight / 2
            - (env.rectHeight / 2 - s.panOffset.2) / s.scale
              * (s.scale + d * (1 / 10))) } := by
  simp only [handleZoom]
  rw [max_eq_left hlo, min_eq_left hhi]

lemma zoom_center_cancel (h p sc ns : ℚ) (hsc : sc ≠ 0) (hns : ns ≠ 0) :
    h - (h - (h - (h - p) / sc * ns)) / ns * sc = p := by
  have e1 : h - (h - (h - p) / sc * ns) = (h - p) / sc * ns := by ring
  rw [e1, mul_div_cancel_right₀ _ hns, div_mul_cancel₀ _ hsc]
  ring

/-- Claim C7 (amended): zooming in by step d and back out by step d
restores the scale and the pan offset exactly (hence keeps the buffer
point under the viewport center at the same screen position) whenever
neither application clamps, that is, whenever scale + d/10 also lies in
the range 1/10 to 3; at the clamp boundary the roundtrip changes the
scale, as the counterexample shows. -/
theorem zoom_roundtrip_amended (env : Env) (s : DTState) (d : ℚ)
    (h1 : 1 / 10 ≤ s.scale) (h2 : s.scale ≤ 3)
    (h3 : 1 / 10 ≤ s.scale + d * (1 / 10))
    (h4 : s.scale + d * (1 / 10) ≤ 3) :
    (handleZoom env (-d) (handleZoom env d s)).scale = s.scale ∧
    (handleZoom env (-d) (handleZoom env d s)).panOffset = s.panOffset ∧
    renderTransform (handleZoom env (-d) (handleZoom env d s)).panOffset
        (handleZoom env (-d) (handleZoom env d s)).scale
        ((env.rectWidth / 2 - s.panOffset.1) / s.scale,
         (env.rectHeight / 2 - s.panOffset.2) / s.scale)
      = renderTransform s.panOffset s.scale
          ((env.rectWidth / 2 - s.panOffset.1) / s.scale,
           (env.rectHeight / 2 - s.panOffset.2) / s.scale) := by
  have hs : s.scale ≠ 0 := (lt_of_lt_of_le (by norm_num) h1).ne'
  have hs1 : s.scale + d * (1 / 10) ≠ 0 :=
    (lt_of_lt_of_le (by norm_num) h3).ne'
  rw [handleZoom_eq env d s h3 h4]
  rw [handleZoom_eq env (-d) _ (by dsimp only; linarith)
    (by dsimp only; linarith)]
  refine ⟨?_, ?_, ?_⟩
  · dsimp only
    ring
  · dsimp only
    rw [show s.scale + d * (1 / 10) + -d * (1 / 10) = s.scale from by ring]
    rw [Prod.ext_iff]
    constructor <;> dsimp only
    · exact zoom_center_cancel (env.rectWidth / 2) s.panOffset.1 s.scale
        (s.scale + d * (1 / 10)) hs hs1
    · exact zoom_center_cancel (env.rectHeight / 2) s.panOffset.2 s.scale
        (s.scale + d * (1 / 10)) hs hs1
  · dsimp only [renderTransform]
    rw [show s.scale + d * (1 / 10) + -d * (1 / 10) = s.scale from by ring]
    simp only [Prod.mk.injEq]
    constructor
    · rw [zoom_center_cancel (env.rectWidth / 2) s.panOffset.1 s.scale
        (s.scale + d * (1 / 10)) hs hs1]
    · rw [zoom_center_cancel (env.rectHeight / 2) s.panOffset.2 s.scale
        (s.scale + d * (1 / 10)) hs hs1]

/-- Witness for zoom_roundtrip_amended at the initial state (scale 1)
with one button step. -/
theorem zoom_roundtrip_amended_witness :
    (handleZoom env0 (-1) (handleZoom env0 1 (initState env0))).scale
        = (initState env0).scale ∧
    (handleZoom env0 (-1) (handleZoom env0 1 (initState env0))).panOffset
        = (initState env0).panOffset ∧
    renderTransform
        (handleZoom env0 (-1) (handleZoom env0 1 (initState env0))).panOffset
        (handleZoom env0 (-1) (handleZoom env0 1 (initState env0))).scale
        ((env0.rectWidth / 2 - (initState env0).panOffset.1)
            / (initState env0).scale,
         (env0.rectHeight / 2 - (initState env0).panOffset.2)
            / (initState env0).scale)
      = renderTransform (initState env0).panOffset (initState env0).scale
          ((env0.rectWidth / 2 - (initState env0).panOffset.1)
              / (initState env0).scale,
           (env0.rectHeight / 2 - (initState env0).panOffset.2)
              / (initState env0).scale) :=
  zoom_roundtrip_amended env0 (initState env0) 1
    (by norm_num [initState]) (by norm_num [initState])
    (by norm_num [initState]) (by norm_num [initState])

/-- Counterexample to claim C9: for the previous point (0, 0) and the
new point (4, 2), the code emits a quadratic whose control point is the
previous point (0, 0), not the current point (4, 2) as the claim
states. -/
theorem smooth_control_cex :
    (drawSmoothLine (some ((0 : ℚ), (0 : ℚ))) (0, 0) (4, 2)).1
      = [.quad (0, 0) (0, 0) (2, 1), .line (2, 1) (4, 2)] ∧
    specSmoothCmds (0, 0) (4, 2)
      = [.quad (0, 0) (4, 2) (2, 1), .line (2, 1) (4, 2)] ∧
    PathCmd.quad ((0 : ℚ), (0 : ℚ)) (0, 0) (2, 1)
      ≠ PathCmd.quad (0, 0) (4, 2) (2, 1) := by
  refine ⟨?_, ?_, ?_⟩ <;>
    norm_num [drawSmoothLine, specSmoothCmds, midpoint2, Prod.ext_iff]

/-- Claim C9 (amended): on each pointer-move after the first point the
code emits a quadratic from the previous point to the midpoint whose
control point is the previous point itself, followed by a straight
segment from the midpoint to the new point; since the control point
coincides with the curve start, the quadratic degenerates and every
point of the emitted path lies on the straight segment from the
previous point to the new point — the segment is drawn as a straight
line, not as a genuine midpoint quadratic with the current point as
control. -/
theorem smooth_degenerate (lp e : Point) :
    (drawSmoothLine (some lp) lp e).1
      = [.quad lp lp (midpoint2 lp e), .line (midpoint2 lp e) e] ∧
    (∀ t : ℚ, qbezier lp lp (midpoint2 lp e) t = lerp lp e (t ^ 2 / 2)) ∧
    (∀ t : ℚ, lerp (midpoint2 lp e) e t = lerp lp e (1 / 2 + t / 2)) := by
  refine ⟨rfl, ?_, ?_⟩ <;> intro t <;>
    simp only [qbezier, lerp, midpoint2, Prod.mk.injEq] <;>
    constructor <;> ring

end DrawingTool
